/-
Verification of the DS Gutachten submission pipeline (src/server.js).

This file gives a shallow embedding of the pipeline implemented by the
`DSGutachtenServer` class: field normalization (`normalizeFormData`),
validation (`validateFormData`), PDF rendering (`generatePDFFile`),
Google Drive upload (`uploadToGoogleDrive`), Notion record keeping
(`processNotionIntegration`, `findCustomerByKennzeichen`,
`buildKontakteProperties`, `buildGutachtenResourceProperties`) and the
orchestrating `processGutachtenSubmission`.

Modelling conventions:
- A JavaScript object of form fields is an association list
  `List (String × String)` with JS property semantics: assignment
  replaces the binding in place if the key exists, otherwise appends;
  property access returns the first binding.
- JS string values are Lean `String`s; a missing property is `none`;
  JS truthiness of a string-or-undefined value is "present and not empty".
- `String.prototype.split(sep)` (splitting on every occurrence of the
  separator) is modelled character-wise by `splitOnChar` / `jsSplit`.
- `Date.now()` and `new Date().getFullYear()` are explicit `now`/`year`
  parameters threaded through the `World` state.
- The external collaborators (Google Drive, Notion) are modelled as
  explicit states (`DriveState`, `NotionState`) with Boolean fault flags
  standing for the network/API calls that can throw in the source;
  throwing JS code is an `Except String` computation.
-/
import Mathlib

set_option maxRecDepth 4096

/-! ## JS string primitives -/

/-- Character-level model of JavaScript `String.prototype.split(c)`:
splits on every occurrence of `c`, keeping empty segments. -/
def splitOnChar (c : Char) : List Char → List (List Char)
  | [] => [[]]
  | x :: xs =>
    if x = c then [] :: splitOnChar c xs
    else
      match splitOnChar c xs with
      | [] => [[x]]
      | h :: t => (x :: h) :: t

/-- JS `s.split(c)` for a one-character separator. -/
def jsSplit (s : String) (c : Char) : List String :=
  (splitOnChar c s.data).map String.mk

/-- JS `key.replace(/\./g, '_')`: replace every dot by an underscore. -/
def dotToUnderscore (k : String) : String :=
  String.mk (k.data.map fun c => if c = '.' then '_' else c)

/-- JS `s.slice(-6)`: the last six characters (the whole string when
shorter than six characters). -/
def jsSliceLast6 (s : String) : String :=
  String.mk (s.data.drop (s.data.length - 6))

/-- JS `a || b` on strings (empty string is falsy). -/
def jsOrStr (a b : String) : String :=
  if a = "" then b else a

/-- JS `s.trim()`: strip leading and trailing whitespace (modelled
structurally on the character list so that it evaluates by `decide`). -/
def jsTrim (s : String) : String :=
  String.mk (((s.data.dropWhile Char.isWhitespace).reverse.dropWhile Char.isWhitespace).reverse)

/-! ## Form-data objects -/

/-- A JavaScript object holding form fields, as an association list. -/
abbrev Obj := List (String × String)

/-- JS property read `o[k]` (`undefined` is `none`). -/
def getStr (o : Obj) (k : String) : Option String :=
  o.lookup k

/-- JS property read defaulted to the empty string (`o[k] || ''` for a
missing property; template literals over our field values behave the
same because the claims only evaluate them on present fields). -/
def getStrD (o : Obj) (k : String) : String :=
  (getStr o k).getD ""

/-- JS truthiness of a possibly-missing string value. -/
def truthy (v : Option String) : Bool :=
  match v with
  | none => false
  | some s => s ≠ ""

/-- JS property assignment `o[k] = v`: replace in place or append. -/
def setKey : Obj → String → String → Obj
  | [], k, v => [(k, v)]
  | (k', v') :: rest, k, v =>
    if k' = k then (k, v) :: rest else (k', v') :: setKey rest k v

/-! ## `normalizeFormData` (src/server.js lines 244-279) -/

/-- One key of the frontend payload, normalized: dotted keys are joined
with underscores (two segments directly, deeper nesting by replacing all
dots), and the alias `gutachtenNr` maps to `gutachten_nr`; all other
keys pass through. -/
def normalizeKey (k : String) : String :=
  if k.data.contains '.' then
    match jsSplit k '.' with
    | [p, s] => p ++ "_" ++ s
    | _ => dotToUnderscore k
  else if k = "gutachtenNr" then "gutachten_nr" else k

/-- The `Object.keys(data).forEach` loop of `normalizeFormData`: build
the normalized object by assigning each field under its normalized key. -/
def normalizeKeysOnly (data : Obj) : Obj :=
  data.foldl (fun acc p => setKey acc (normalizeKey p.1) p.2) []

/-- The auto-generated order number
`` `DS-${new Date().getFullYear()}-${String(Date.now()).slice(-6)}` ``. -/
def synthGutachtenNr (year now : Nat) : String :=
  "DS-" ++ Nat.repr year ++ "-" ++ jsSliceLast6 (Nat.repr now)

/-- `normalizeFormData`: normalize every key, then synthesize
`gutachten_nr` when it is missing or falsy. -/
def normalizeFormData (now year : Nat) (data : Obj) : Obj :=
  let normalized := normalizeKeysOnly data
  if truthy (getStr normalized "gutachten_nr") then normalized
  else setKey normalized "gutachten_nr" (synthGutachtenNr year now)

/-! ## `validateFormData` (src/server.js lines 281-300) -/

/-- The fixed required-field list of `validateFormData`. -/
def requiredFields : List String :=
  ["gutachten_nr", "auftraggeber_name", "auftraggeber_adresse",
   "auftraggeber_kontakt", "auftraggeber_kennzeichen", "unfall_tag", "unfall_ort"]

/-- `!data[field] || data[field].toString().trim() === ''`: the field is
absent, empty, or whitespace-only (an empty string is falsy and also
trims to empty, so the disjunction collapses to absent-or-trims-empty). -/
def fieldMissing (data : Obj) (f : String) : Bool :=
  match getStr data f with
  | none => true
  | some v => jsTrim v = ""

/-- The `for (const field of required)` loop: throw on the first missing
field. (The subsequent email-format check in the source is dead code:
its failure branch is empty.) -/
def validateFields (data : Obj) : List String → Except String Unit
  | [] => .ok ()
  | f :: rest =>
    if fieldMissing data f then .error ("Erforderliches Feld fehlt: " ++ f)
    else validateFields data rest

/-- `validateFormData`. -/
def validateFormData (data : Obj) : Except String Unit :=
  validateFields data requiredFields

/-! ## Contact-string parsing (src/server.js lines 388-391 and 606-610) -/

/-- Email/phone extraction inside `generatePDFFile`:
`kontakt.split('/').map(p => p.trim())`, then `parts[0] || ''` and
`parts[1] || ''`. -/
def pdfKontaktParts (fd : Obj) : List String :=
  (jsSplit (getStrD fd "auftraggeber_kontakt") '/').map jsTrim

/-- The e-mail printed in the rendered document's client section. -/
def pdfClientEmail (fd : Obj) : String :=
  jsOrStr ((pdfKontaktParts fd).getD 0 "") ""

/-- The phone number printed in the rendered document's client section. -/
def pdfClientPhone (fd : Obj) : String :=
  jsOrStr ((pdfKontaktParts fd).getD 1 "") ""

/-- Email/phone extraction inside `buildKontakteProperties`:
`formData.auftraggeber_kontakt ? formData.auftraggeber_kontakt.split('/') : ['', '']`. -/
def kontakteParts (fd : Obj) : List String :=
  if truthy (getStr fd "auftraggeber_kontakt") then
    jsSplit (getStrD fd "auftraggeber_kontakt") '/'
  else ["", ""]

/-- `kontaktParts[0] ? kontaktParts[0].trim() : ''`. -/
def kontakteEmail (fd : Obj) : String :=
  let e := (kontakteParts fd).getD 0 ""
  if e = "" then "" else jsTrim e

/-- `kontaktParts[1] ? kontaktParts[1].trim() : ''`. -/
def kontaktePhone (fd : Obj) : String :=
  let p := (kontakteParts fd).getD 1 ""
  if p = "" then "" else jsTrim p

/-! ## Notion model (src/server.js lines 302-488) -/

/-- A page of the KONTAKTE database, with the properties populated by
`buildKontakteProperties`. -/
structure NotionContact where
  id : Nat
  cname : String
  kennzeichen : String
  email : String
  phone : Option String
  address : String
  deriving Repr, DecidableEq

/-- A page of the Business Resources database, with the properties
populated by `buildGutachtenResourceProperties` (the `Link` and
`Kontakte` properties are omitted when `none`). -/
structure NotionResource where
  id : Nat
  rname : String
  link : Option String
  kontaktRel : Option Nat
  deriving Repr, DecidableEq

/-- The record-keeping collaborator: its stored pages plus fault flags
for the two kinds of API call the source wraps in try/catch. -/
structure NotionState where
  /-- `databases.query` succeeds (`findCustomerByKennzeichen` catches a
  failure and returns null). -/
  queryOk : Bool
  /-- `pages.create` succeeds (failures are caught per stage). -/
  createOk : Bool
  contacts : List NotionContact
  resources : List NotionResource
  nextId : Nat
  deriving Repr, DecidableEq

/-- `buildKontakteProperties` (the fields of the contact page that vary
with the form; the fixed relation/priority/archive properties are
constants in the source). -/
def buildKontakteProperties (st : NotionState) (fd : Obj) : NotionContact :=
  { id := st.nextId
    cname := getStrD fd "auftraggeber_name"
    kennzeichen := getStrD fd "auftraggeber_kennzeichen"
    email := kontakteEmail fd
    phone := if kontaktePhone fd = "" then none else some (kontaktePhone fd)
    address := getStrD fd "auftraggeber_adresse" }

/-- `buildGutachtenResourceProperties`: the `Link` property is added only
if a truthy Google Drive link exists, the `Kontakte` relation only if a
customer id exists. -/
def buildGutachtenResourceProperties (st : NotionState) (fd : Obj)
    (googleDriveFileLink : Option String) (customerId : Option Nat) : NotionResource :=
  { id := st.nextId
    rname := "Gutachten " ++ getStrD fd "auftraggeber_kennzeichen" ++ " - " ++
      getStrD fd "auftraggeber_name" ++ " (" ++ getStrD fd "gutachten_nr" ++ ")"
    link := match googleDriveFileLink with
      | some l => if l = "" then none else some l
      | none => none
    kontaktRel := customerId }

/-- `findCustomerByKennzeichen`: query the KONTAKTE database for an
exact `Kennzeichen` match; any query error is caught and turned into
`null`, indistinguishable from "no such contact". -/
def findCustomerByKennzeichen (st : NotionState) (kennzeichen : String) :
    Option NotionContact :=
  if st.queryOk then st.contacts.find? (fun c => c.kennzeichen = kennzeichen)
  else none

/-- Per-substage outcome of the Notion integration (`customer` /
`businessResource` in the source: null when not configured, an
`{id, action}` object, or a caught `{error}` object). -/
inductive NotionEntryResult where
  | notRun
  | foundExisting (id : Nat)
  | created (id : Nat)
  | failed (msg : String)
  deriving Repr, DecidableEq

/-- `customer?.id` in the source. -/
def NotionEntryResult.pageId : NotionEntryResult → Option Nat
  | .foundExisting i => some i
  | .created i => some i
  | _ => none

/-- The value returned by `processNotionIntegration`. -/
structure NotionResult where
  customer : NotionEntryResult
  businessResource : NotionEntryResult
  deriving Repr, DecidableEq

/-- `processNotionIntegration` (src/server.js lines 302-366): upsert the
contact keyed by the vehicle plate, then create the order entry, each
step catching its own errors. -/
def processNotionIntegration (kontakteConfigured businessResourcesConfigured : Bool)
    (fd : Obj) (googleDriveFileLink : Option String) (st : NotionState) :
    NotionResult × NotionState :=
  -- 1. customer entry in KONTAKTE
  let (customer, st1) :=
    if kontakteConfigured then
      match findCustomerByKennzeichen st (getStrD fd "auftraggeber_kennzeichen") with
      | some c => (NotionEntryResult.foundExisting c.id, st)
      | none =>
        if st.createOk then
          (NotionEntryResult.created st.nextId,
            { st with contacts := st.contacts ++ [buildKontakteProperties st fd],
                      nextId := st.nextId + 1 })
        else (NotionEntryResult.failed "pages.create failed", st)
    else (NotionEntryResult.notRun, st)
  -- 2. Business Resource entry for the Gutachten
  let (businessResource, st2) :=
    if businessResourcesConfigured then
      if st1.createOk then
        (NotionEntryResult.created st1.nextId,
          { st1 with
              resources := st1.resources ++
                [buildGutachtenResourceProperties st1 fd googleDriveFileLink customer.pageId],
              nextId := st1.nextId + 1 })
      else (NotionEntryResult.failed "pages.create failed", st1)
    else (NotionEntryResult.notRun, st1)
  ({ customer := customer, businessResource := businessResource }, st2)

/-! ## Google Drive model (src/server.js lines 701-790) -/

structure DriveFolder where
  id : Nat
  fname : String
  parent : Nat
  deriving Repr, DecidableEq

structure DriveFile where
  id : Nat
  fname : String
  parent : Nat
  deriving Repr, DecidableEq

/-- The object-store collaborator: the configured root folder, stored
folders/files, and a reachability flag standing for the Drive API calls
(`files.get`/`files.list`/`files.create`) that can throw. -/
structure DriveState where
  /-- `process.env.GOOGLE_DRIVE_ROOT_FOLDER`. -/
  rootFolder : Option Nat
  /-- The Drive API is reachable; when false the first API call throws. -/
  reachable : Bool
  folders : List DriveFolder
  files : List DriveFile
  nextId : Nat
  deriving Repr, DecidableEq

/-- The return value of a successful `uploadToGoogleDrive`. -/
structure DriveUploadResult where
  fileId : Nat
  fileName : String
  folderName : String
  folderId : Nat
  fileLink : String
  deriving Repr, DecidableEq

/-- `uploadToGoogleDrive`: resolve the configured root, look for an
existing customer folder named after the Kennzeichen, reuse it or create
it, upload the PDF into it, grant public read (no effect on the modelled
state) and return ids plus a constructed shareable link. Any failing
step raises `Google Drive Upload fehlgeschlagen`. -/
def uploadToGoogleDrive (fd : Obj) (_pdfFilePath : String) (d : DriveState) :
    Except String (DriveUploadResult × DriveState) :=
  let folderName := jsOrStr (getStrD fd "auftraggeber_kennzeichen") (getStrD fd "kennzeichen")
  let fileName := "Gutachten_" ++ getStrD fd "gutachten_nr" ++ ".pdf"
  match d.rootFolder with
  | none => .error "Google Drive Upload fehlgeschlagen: GOOGLE_DRIVE_ROOT_FOLDER not configured"
  | some rootFolderId =>
    if d.reachable then
      -- files.list: folders named `folderName` under the root
      let (customerFolderId, d1) : Nat × DriveState :=
        match d.folders.find? (fun f => f.fname = folderName && f.parent = rootFolderId) with
        | some f => (f.id, d)
        | none =>
          (d.nextId,
            { d with
                folders := d.folders ++
                  [{ id := d.nextId, fname := folderName, parent := rootFolderId }],
                nextId := d.nextId + 1 })
      -- files.create: upload the PDF into the customer folder
      let fileId := d1.nextId
      let d2 := { d1 with
        files := d1.files ++ [{ id := fileId, fname := fileName, parent := customerFolderId }],
        nextId := d1.nextId + 1 }
      .ok ({ fileId := fileId, fileName := fileName, folderName := folderName,
             folderId := customerFolderId,
             fileLink := "https://drive.google.com/file/d/" ++ Nat.repr fileId ++ "/view" }, d2)
    else .error "Google Drive Upload fehlgeschlagen: Drive API unreachable"

/-! ## PDF rendering model (src/server.js lines 540-699) -/

/-- The dynamic content of the rendered document that the claims refer
to (order number and the client section with the parsed contact). -/
structure PdfDocument where
  gutachten_nr : String
  clientName : String
  clientAddress : String
  clientEmail : String
  clientPhone : String
  kennzeichen : String
  deriving Repr, DecidableEq

/-- A rendered PDF sitting in the scratch (`temp/`) directory. -/
structure TempFile where
  path : String
  doc : PdfDocument
  deriving Repr, DecidableEq

/-- The scratch file written by `generatePDFFile`:
`` temp/Gutachten_${gutachten_nr}_${Date.now()}.pdf `` holding the
rendered document. -/
def renderedTempFile (fd : Obj) (now : Nat) : TempFile :=
  { path := "temp/Gutachten_" ++ getStrD fd "gutachten_nr" ++ "_" ++
      Nat.repr now ++ ".pdf"
    doc :=
      { gutachten_nr := getStrD fd "gutachten_nr"
        clientName := getStrD fd "auftraggeber_name"
        clientAddress := getStrD fd "auftraggeber_adresse"
        clientEmail := pdfClientEmail fd
        clientPhone := pdfClientPhone fd
        kennzeichen := getStrD fd "auftraggeber_kennzeichen" } }

/-- `generatePDFFile`: write the rendered document to the scratch
directory; a PDFKit/stream error rejects the promise and leaves no
usable artifact. -/
def generatePDFFile (pdfFails : Bool) (fd : Obj) (now : Nat)
    (tempFiles : List TempFile) : Except String (String × List TempFile) :=
  if pdfFails then .error "PDF stream error"
  else .ok ((renderedTempFile fd now).path, tempFiles ++ [renderedTempFile fd now])

/-! ## The pipeline (src/server.js lines 185-242) -/

/-- The server-side collaborator handles: `this.drive`, `this.notion`
and the two configured Notion database ids. -/
structure ServerCtx where
  driveInit : Bool
  notionInit : Bool
  kontakteConfigured : Bool
  businessResourcesConfigured : Bool
  deriving Repr, DecidableEq

/-- The mutable world a submission runs against. -/
structure World where
  now : Nat
  year : Nat
  pdfFails : Bool
  tempFiles : List TempFile
  drive : DriveState
  notion : NotionState
  deriving Repr, DecidableEq

/-- `results.googleDrive`: a drive result, a caught `{error}` or a
`{skipped}` marker. -/
inductive DriveOutcome where
  | ok (r : DriveUploadResult)
  | failed (msg : String)
  | skipped (msg : String)
  deriving Repr, DecidableEq

/-- `results.notion`. -/
inductive NotionOutcome where
  | ok (r : NotionResult)
  | skipped (msg : String)
  deriving Repr, DecidableEq

/-- The upload stage was recorded as an error or a skip. -/
def DriveOutcome.failedOrSkipped : DriveOutcome → Bool
  | .ok _ => false
  | .failed _ => true
  | .skipped _ => true

/-- The `results` object returned on overall success. -/
structure SubmissionResults where
  gutachten_nr : String
  pdfFilePath : String
  googleDrive : DriveOutcome
  notion : NotionOutcome
  deriving Repr, DecidableEq

/-- `processGutachtenSubmission`: normalize, validate, render (fatal on
failure), upload (non-fatal), record-keeping (non-fatal). The final
`World` is returned alongside so that the side effects of every exit
path are observable. -/
def processGutachtenSubmission (ctx : ServerCtx) (raw : Obj) (w : World) :
    Except String SubmissionResults × World :=
  let formData := normalizeFormData w.now w.year raw
  match validateFormData formData with
  | .error e => (.error e, w)
  | .ok _ =>
    -- 1. Generate PDF file (a failure aborts the submission)
    match generatePDFFile w.pdfFails formData w.now w.tempFiles with
    | .error _ => (.error "PDF-Generierung fehlgeschlagen", w)
    | .ok (pdfFilePath, tempFiles1) =>
      let w1 := { w with tempFiles := tempFiles1 }
      -- 2. Upload to Google Drive (errors are caught and recorded)
      let (gdOutcome, googleDriveFileLink, w2) :=
        if ctx.driveInit && pdfFilePath != "" then
          match uploadToGoogleDrive formData pdfFilePath w1.drive with
          | .ok (r, d2) => (DriveOutcome.ok r, some r.fileLink, { w1 with drive := d2 })
          | .error e => (DriveOutcome.failed e, none, w1)
        else
          (DriveOutcome.skipped "Google Drive client not initialized or PDF failed", none, w1)
      -- 3. Notion integration (errors are caught inside)
      let (ntOutcome, w3) :=
        if ctx.notionInit then
          let (r, st2) := processNotionIntegration ctx.kontakteConfigured
            ctx.businessResourcesConfigured formData googleDriveFileLink w2.notion
          (NotionOutcome.ok r, { w2 with notion := st2 })
        else (NotionOutcome.skipped "Notion client not initialized", w2)
      (.ok { gutachten_nr := getStrD formData "gutachten_nr"
             pdfFilePath := pdfFilePath
             googleDrive := gdOutcome
             notion := ntOutcome }, w3)

/-! ## Helper lemmas: JS objects -/

theorem getStr_setKey_self (o : Obj) (k v : String) :
    getStr (setKey o k v) k = some v := by
  induction o with
  | nil => simp [setKey, getStr, List.lookup]
  | cons p rest ih =>
    obtain ⟨k', v'⟩ := p
    by_cases h : k' = k
    · simp [setKey, h, getStr, List.lookup]
    · simp only [setKey, if_neg h, getStr, List.lookup]
      have hne : (k == k') = false := by
        simp [beq_iff_eq]
        exact fun hk => h hk.symm
      rw [hne]
      exact ih

theorem setKey_of_not_mem (o : Obj) (k v : String) (h : ∀ p ∈ o, p.1 ≠ k) :
    setKey o k v = o ++ [(k, v)] := by
  induction o with
  | nil => simp [setKey]
  | cons p rest ih =>
    obtain ⟨k', v'⟩ := p
    have hne : k' ≠ k := h (k', v') (List.mem_cons_self _ _)
    simp only [setKey, if_neg hne, List.cons_append, List.cons.injEq, true_and]
    exact ih fun q hq => h q (List.mem_cons_of_mem _ hq)

/-! ## Helper lemmas: the character-level split -/

theorem splitOnChar_ne_nil (c : Char) (l : List Char) : splitOnChar c l ≠ [] := by
  cases l with
  | nil => simp [splitOnChar]
  | cons x xs =>
    by_cases h : x = c
    · simp [splitOnChar, h]
    · cases hs : splitOnChar c xs <;> simp [splitOnChar, h, hs]

theorem splitOnChar_of_not_contains (c : Char) (l : List Char)
    (h : l.contains c = false) : splitOnChar c l = [l] := by
  induction l with
  | nil => simp [splitOnChar]
  | cons x xs ih =>
    simp only [List.contains_cons, Bool.or_eq_false_iff, beq_eq_false_iff_ne] at h
    simp [splitOnChar, Ne.symm h.1, ih h.2]

theorem splitOnChar_sandwich (c : Char) (a b : List Char)
    (ha : a.contains c = false) (hb : b.contains c = false) :
    splitOnChar c (a ++ c :: b) = [a, b] := by
  induction a with
  | nil => simp [splitOnChar, splitOnChar_of_not_contains c b hb]
  | cons x xs ih =>
    simp only [List.contains_cons, Bool.or_eq_false_iff, beq_eq_false_iff_ne] at ha
    simp [splitOnChar, Ne.symm ha.1, ih ha.2]

theorem splitOnChar_length (c : Char) (l : List Char) :
    (splitOnChar c l).length = l.count c + 1 := by
  induction l with
  | nil => simp [splitOnChar]
  | cons x xs ih =>
    by_cases h : x = c
    · subst h
      simp [splitOnChar, List.count_cons, ih]
    · cases hs : splitOnChar c xs with
      | nil => exact absurd hs (splitOnChar_ne_nil c xs)
      | cons hd tl =>
        rw [hs] at ih
        simp only [List.length_cons] at ih
        simp [splitOnChar, h, hs, List.count_cons]
        omega

theorem splitOnChar_structure (c : Char) (l : List Char) :
    splitOnChar c l = l.takeWhile (fun x => x != c) ::
      (match l.dropWhile (fun x => x != c) with
       | [] => []
       | _ :: t => splitOnChar c t) := by
  induction l with
  | nil => simp [splitOnChar]
  | cons x xs ih =>
    by_cases h : x = c
    · subst h
      simp [splitOnChar, List.takeWhile_cons, List.dropWhile_cons]
    · have hx : (x != c) = true := by simp [h]
      cases hs : splitOnChar c xs with
      | nil => exact absurd hs (splitOnChar_ne_nil c xs)
      | cons hd tl =>
        rw [hs] at ih
        simp only [splitOnChar, if_neg h, hs, List.takeWhile_cons, List.dropWhile_cons, hx,
          if_true, cond_true]
        rw [List.cons.injEq] at ih ⊢
        exact ⟨by rw [ih.1], ih.2⟩

theorem splitOnChar_getD_zero (c : Char) (l : List Char) :
    (splitOnChar c l).getD 0 [] = l.takeWhile (fun x => x != c) := by
  rw [splitOnChar_structure]
  rfl

theorem splitOnChar_getD_one (c : Char) (l : List Char) :
    (splitOnChar c l).getD 1 [] =
      ((l.dropWhile (fun x => x != c)).drop 1).takeWhile (fun x => x != c) := by
  rw [splitOnChar_structure]
  cases hd : l.dropWhile (fun x => x != c) with
  | nil => simp
  | cons y t =>
    simp only [List.getD_cons_succ, List.drop_succ_cons, List.drop_zero]
    rw [splitOnChar_structure]
    rfl

/-! ## Spec-side definitions (for comparison with the embedded code) -/

/-- Modelled from the spec's words: the client's email is the trimmed
substring of the combined contact string before the first `/`. -/
def specEmailOfKontakt (s : String) : String :=
  jsTrim (String.mk (s.data.takeWhile (fun x => x != '/')))

/-- Modelled from the spec's words: the client's phone is the trimmed
remainder of the combined contact string after the first `/`. -/
def specPhoneOfKontakt (s : String) : String :=
  jsTrim (String.mk ((s.data.dropWhile (fun x => x != '/')).drop 1))

/-- What the code actually extracts as the phone: the trimmed segment
between the first and the second `/` (because `split('/')` splits on
every slash). -/
def segmentPhoneOfKontakt (s : String) : String :=
  jsTrim (String.mk (((s.data.dropWhile (fun x => x != '/')).drop 1).takeWhile (fun x => x != '/')))

/-- The spec's description of normalization: every key renamed by
`normalizeKey`, all values untouched, no key added or dropped. -/
def mapNormalizeKeys (raw : Obj) : Obj :=
  raw.map fun p => (normalizeKey p.1, p.2)

/-! ## Helper lemmas: string-level split characterizations -/

theorem trim_empty : jsTrim "" = "" := rfl

theorem getD_map_mk (l : List (List Char)) (i : Nat) :
    (l.map String.mk).getD i "" = String.mk (l.getD i []) := by
  induction l generalizing i with
  | nil => cases i <;> rfl
  | cons x xs ih => cases i <;> simp [ih]

theorem getD_map_trim (l : List String) (i : Nat) :
    (l.map jsTrim).getD i "" = jsTrim (l.getD i "") := by
  induction l generalizing i with
  | nil => cases i <;> simp [trim_empty]
  | cons x xs ih =>
    cases i with
    | zero => simp
    | succ n =>
      simp only [List.map_cons, List.getD_cons_succ]
      exact ih n

theorem jsSplit_getD_zero (s : String) (c : Char) :
    (jsSplit s c).getD 0 "" = String.mk (s.data.takeWhile (fun x => x != c)) := by
  rw [jsSplit, getD_map_mk, splitOnChar_getD_zero]

theorem jsSplit_getD_one (s : String) (c : Char) :
    (jsSplit s c).getD 1 "" =
      String.mk (((s.data.dropWhile (fun x => x != c)).drop 1).takeWhile (fun x => x != c)) := by
  rw [jsSplit, getD_map_mk, splitOnChar_getD_one]

theorem takeWhile_of_count_zero (c : Char) (l : List Char) (h : l.count c = 0) :
    l.takeWhile (fun x => x != c) = l := by
  induction l with
  | nil => rfl
  | cons x xs ih =>
    rw [List.count_cons] at h
    have hx : x ≠ c := by
      intro hxc
      simp [hxc] at h
    have hxs : xs.count c = 0 := by omega
    simp [List.takeWhile_cons, hx, ih hxs]

theorem segment_eq_remainder_of_count_le_one (c : Char) (l : List Char)
    (h : l.count c ≤ 1) :
    ((l.dropWhile (fun x => x != c)).drop 1).takeWhile (fun x => x != c) =
      (l.dropWhile (fun x => x != c)).drop 1 := by
  induction l with
  | nil => rfl
  | cons x xs ih =>
    by_cases hx : x = c
    · subst hx
      simp only [List.dropWhile_cons, bne_self_eq_false, Bool.false_eq_true, if_false,
        List.drop_succ_cons, List.drop_zero]
      apply takeWhile_of_count_zero
      rw [List.count_cons] at h
      simp at h
      omega
    · have hcount : xs.count c ≤ 1 := by
        rw [List.count_cons] at h
        omega
      simpa [List.dropWhile_cons, hx] using ih hcount

/-! ## Helper lemmas: the validator -/

theorem validateFields_first_missing (data : Obj) :
    ∀ (l : List String) (f : String), f ∈ l → fieldMissing data f = true →
      ∃ g l1 l2, l = l1 ++ g :: l2 ∧ (∀ x ∈ l1, fieldMissing data x = false) ∧
        fieldMissing data g = true ∧
        validateFields data l = .error ("Erforderliches Feld fehlt: " ++ g) := by
  intro l
  induction l with
  | nil => intro f hf; exact absurd hf (List.not_mem_nil f)
  | cons a rest ih =>
    intro f hf hm
    by_cases ha : fieldMissing data a = true
    · exact ⟨a, [], rest, rfl, by simp, ha, by simp [validateFields, ha]⟩
    · have hfa : f ≠ a := fun he => ha (he ▸ hm)
      have hf' : f ∈ rest := by
        rcases List.mem_cons.1 hf with h | h
        · exact absurd h hfa
        · exact h
      obtain ⟨g, l1, l2, he, h1, hg, hv⟩ := ih f hf' hm
      refine ⟨g, a :: l1, l2, by simp [he], ?_, hg, ?_⟩
      · intro x hx
        rcases List.mem_cons.1 hx with h | h
        · subst h; exact Bool.eq_false_iff.2 ha
        · exact h1 x h
      · simp only [Bool.not_eq_true] at ha
        simp [validateFields, ha, hv]

/-! ## Helper lemmas: the normalization fold -/

theorem normalizeKeysOnly_go (l : Obj) :
    ∀ acc : Obj,
      (l.map fun p => normalizeKey p.1).Nodup →
      (∀ p ∈ acc, ∀ q ∈ l, p.1 ≠ normalizeKey q.1) →
      l.foldl (fun acc p => setKey acc (normalizeKey p.1) p.2) acc
        = acc ++ l.map (fun p => (normalizeKey p.1, p.2)) := by
  induction l with
  | nil => intro acc _ _; simp
  | cons q rest ih =>
    intro acc hnodup hacc
    simp only [List.foldl_cons]
    rw [setKey_of_not_mem acc (normalizeKey q.1) q.2
      (fun p hp => hacc p hp q (List.mem_cons_self _ _))]
    rw [List.map_cons, List.nodup_cons] at hnodup
    rw [ih (acc ++ [(normalizeKey q.1, q.2)]) hnodup.2 ?_]
    · simp
    · intro p hp q' hq'
      rcases List.mem_append.1 hp with h | h
      · exact hacc p h q' (List.mem_cons_of_mem _ hq')
      · have hpq : p = (normalizeKey q.1, q.2) := by simpa using h
        subst hpq
        intro hcontra
        simp only at hcontra
        apply hnodup.1
        rw [hcontra]
        exact List.mem_map_of_mem (fun p => normalizeKey p.1) hq'

theorem normalizeKeysOnly_eq_map (raw : Obj)
    (hnodup : (raw.map fun p => normalizeKey p.1).Nodup) :
    normalizeKeysOnly raw = mapNormalizeKeys raw := by
  rw [normalizeKeysOnly, normalizeKeysOnly_go raw [] hnodup (by simp)]
  rfl

/-! ## Helper lemmas: decimal representation of the timestamp suffix -/

/-- The decimal digit characters of `n`, most significant first (the
list computed by `Nat.toDigits 10 n`, restated structurally). -/
def decChars (n : Nat) : List Char :=
  if _h : n < 10 then [Nat.digitChar n]
  else decChars (n / 10) ++ [Nat.digitChar (n % 10)]
decreasing_by exact Nat.div_lt_self (by omega) (by omega)

theorem toDigitsCore_acc (b : Nat) :
    ∀ (fuel n : Nat) (ds : List Char),
      Nat.toDigitsCore b fuel n ds = Nat.toDigitsCore b fuel n [] ++ ds := by
  intro fuel
  induction fuel with
  | zero => intro n ds; simp [Nat.toDigitsCore]
  | succ fuel ih =>
    intro n ds
    simp only [Nat.toDigitsCore]
    by_cases h : n / b = 0
    · simp [h]
    · simp only [if_neg h]
      rw [ih (n / b) (Nat.digitChar (n % b) :: ds), ih (n / b) [Nat.digitChar (n % b)]]
      simp

theorem toDigitsCore_eq_decChars :
    ∀ (fuel n : Nat), 0 < fuel → n < 10 ^ fuel →
      Nat.toDigitsCore 10 fuel n [] = decChars n := by
  intro fuel
  induction fuel with
  | zero => intro n h; omega
  | succ fuel ih =>
    intro n _ hlt
    simp only [Nat.toDigitsCore]
    by_cases h : n / 10 = 0
    · have h10 : n < 10 := (Nat.div_eq_zero_iff (by omega)).1 h
      rw [if_pos h, decChars.eq_def, dif_pos h10, Nat.mod_eq_of_lt h10]
    · have h10 : ¬ n < 10 := by
        intro hc
        exact h (Nat.div_eq_of_lt hc)
      have hfuel : 0 < fuel := by
        by_contra hf
        have hf0 : fuel = 0 := by omega
        subst hf0
        simp at hlt
        omega
      have hdiv : n / 10 < 10 ^ fuel := by
        rw [Nat.div_lt_iff_lt_mul (by omega : 0 < 10)]
        calc n < 10 ^ (fuel + 1) := hlt
          _ = 10 ^ fuel * 10 := pow_succ 10 fuel
      have hrec : decChars n = decChars (n / 10) ++ [Nat.digitChar (n % 10)] := by
        conv_lhs => rw [decChars.eq_def]
        rw [dif_neg h10]
      rw [if_neg h, toDigitsCore_acc, ih (n / 10) hfuel hdiv, hrec]

theorem repr_data_eq_decChars (n : Nat) : (Nat.repr n).data = decChars n := by
  have h1 : n < 10 ^ (n + 1) :=
    lt_of_lt_of_le (Nat.lt_pow_self (by omega) n)
      (Nat.pow_le_pow_right (by omega) (Nat.le_succ n))
  have h2 := toDigitsCore_eq_decChars (n + 1) n (Nat.succ_pos n) h1
  simpa [Nat.repr, Nat.toDigits, List.asString] using h2

/-- The last `k` decimal digit characters of `n` (with leading zeros). -/
def lowChars : Nat → Nat → List Char
  | 0, _ => []
  | k + 1, n => lowChars k (n / 10) ++ [Nat.digitChar (n % 10)]

theorem lowChars_length (k : Nat) : ∀ n, (lowChars k n).length = k := by
  induction k with
  | zero => intro n; rfl
  | succ k ih => intro n; simp [lowChars, ih]

theorem decChars_decomp (k : Nat) :
    ∀ n, 10 ^ k ≤ n → decChars n = decChars (n / 10 ^ k) ++ lowChars k n := by
  induction k with
  | zero => intro n _; simp [lowChars]
  | succ k ih =>
    intro n h
    have h10 : ¬ n < 10 := by
      have : (10:Nat) ≤ 10 ^ (k + 1) := by
        calc (10:Nat) = 10 ^ 1 := (pow_one 10).symm
          _ ≤ 10 ^ (k + 1) := Nat.pow_le_pow_right (by omega) (by omega)
      omega
    rw [decChars.eq_def, dif_neg h10]
    have hk : 10 ^ k ≤ n / 10 := by
      rw [Nat.le_div_iff_mul_le (by omega : 0 < 10)]
      calc 10 ^ k * 10 = 10 ^ (k + 1) := (pow_succ 10 k).symm
        _ ≤ n := h
    rw [ih (n / 10) hk, Nat.div_div_eq_div_mul]
    have hp : 10 * 10 ^ k = 10 ^ (k + 1) := by ring
    rw [hp]
    simp [lowChars, List.append_assoc]

/-- The numeric value of a decimal digit character. -/
def digitVal (c : Char) : Nat := c.toNat - 48

/-- The number denoted by a list of decimal digit characters. -/
def charsVal (l : List Char) : Nat := l.foldl (fun a c => 10 * a + digitVal c) 0

theorem digitVal_digitChar : ∀ d : Nat, d < 10 → digitVal (Nat.digitChar d) = d := by decide

theorem charsVal_append_one (l : List Char) (c : Char) :
    charsVal (l ++ [c]) = 10 * charsVal l + digitVal c := by
  simp [charsVal, List.foldl_append]

theorem charsVal_lowChars (k : Nat) : ∀ n, charsVal (lowChars k n) = n % 10 ^ k := by
  induction k with
  | zero => intro n; simp [lowChars, charsVal, Nat.mod_one]
  | succ k ih =>
    intro n
    simp only [lowChars]
    rw [charsVal_append_one, ih (n / 10),
      digitVal_digitChar (n % 10) (Nat.mod_lt n (by omega))]
    have h1 : (10:Nat) ^ (k + 1) = 10 * 10 ^ k := by ring
    rw [h1, Nat.mod_mul]
    omega

theorem charsVal_decChars (n : Nat) : charsVal (decChars n) = n := by
  induction n using Nat.strong_induction_on with
  | _ n ih =>
    by_cases h : n < 10
    · rw [decChars.eq_def, dif_pos h]
      simp [charsVal, digitVal_digitChar n h]
    · rw [decChars.eq_def, dif_neg h, charsVal_append_one,
        ih (n / 10) (Nat.div_lt_self (by omega) (by omega)),
        digitVal_digitChar (n % 10) (Nat.mod_lt n (by omega))]
      omega

theorem decChars_length_le : ∀ (k n : Nat), 0 < k → n < 10 ^ k → (decChars n).length ≤ k := by
  intro k
  induction k with
  | zero => intro n h; omega
  | succ k ih =>
    intro n _ hlt
    by_cases h : n < 10
    · rw [decChars.eq_def, dif_pos h]; simp
    · rw [decChars.eq_def, dif_neg h]
      have hk : 0 < k := by
        by_contra hk0
        have hk1 : k = 0 := by omega
        subst hk1
        rw [pow_one] at hlt
        omega
      have hdiv : n / 10 < 10 ^ k := by
        rw [Nat.div_lt_iff_lt_mul (by omega : 0 < 10)]
        calc n < 10 ^ (k + 1) := hlt
          _ = 10 ^ k * 10 := pow_succ 10 k
      have hih := ih (n / 10) hk hdiv
      simp only [List.length_append, List.length_cons, List.length_nil]
      omega

theorem charsVal_last6_repr (n : Nat) :
    charsVal ((decChars n).drop ((decChars n).length - 6)) = n % 1000000 := by
  by_cases h : n < 1000000
  · have hp : (10:Nat) ^ 6 = 1000000 := by norm_num
    have hlen : (decChars n).length ≤ 6 :=
      decChars_length_le 6 n (by omega) (by omega)
    have h0 : (decChars n).length - 6 = 0 := by omega
    rw [h0, List.drop_zero, charsVal_decChars, Nat.mod_eq_of_lt h]
  · have hp : (10:Nat) ^ 6 = 1000000 := by norm_num
    have h6 : 10 ^ 6 ≤ n := by omega
    rw [decChars_decomp 6 n h6, List.length_append, lowChars_length]
    have h0 : (decChars (n / 10 ^ 6)).length + 6 - 6 = (decChars (n / 10 ^ 6)).length := by
      omega
    rw [h0, List.drop_left, charsVal_lowChars]
    omega

theorem jsSliceLast6_repr_data (n : Nat) :
    (jsSliceLast6 (Nat.repr n)).data = (decChars n).drop ((decChars n).length - 6) := by
  simp [jsSliceLast6, repr_data_eq_decChars]

theorem synthGutachtenNr_ne_of_mod_ne (year n1 n2 : Nat)
    (h : n1 % 1000000 ≠ n2 % 1000000) :
    synthGutachtenNr year n1 ≠ synthGutachtenNr year n2 := by
  intro he
  apply h
  have hd := congrArg String.data he
  simp only [synthGutachtenNr, String.data_append, List.append_assoc] at hd
  have h1 := List.append_cancel_left hd
  have h2 := List.append_cancel_left h1
  have h3 := List.append_cancel_left h2
  rw [jsSliceLast6_repr_data, jsSliceLast6_repr_data] at h3
  rw [← charsVal_last6_repr n1, ← charsVal_last6_repr n2, h3]

theorem synthGutachtenNr_ne_empty (year now : Nat) : synthGutachtenNr year now ≠ "" := by
  intro he
  have hd := congrArg String.data he
  simp [synthGutachtenNr, String.data_append] at hd

/-! ## Concrete inputs used by witnesses and counterexamples -/

/-- The end-to-end example payload from the spec. -/
def exampleRaw : Obj :=
  [("auftraggeber.name", "Max Mustermann"), ("auftraggeber.kennzeichen", "BI-XX 123"),
   ("auftraggeber.adresse", "Teststr 1"), ("auftraggeber.kontakt", "max@test.de / 0151123456"),
   ("unfall_tag", "2025-01-01"), ("unfall_ort", "Bielefeld")]

/-- The example payload with an explicit order number alias. -/
def exampleRawWithNr : Obj := ("gutachtenNr", "DS-2025-000123") :: exampleRaw

def exampleDrive : DriveState :=
  { rootFolder := some 1, reachable := true, folders := [], files := [], nextId := 10 }

def exampleNotion : NotionState :=
  { queryOk := true, createOk := true, contacts := [], resources := [], nextId := 100 }

def exampleWorld : World :=
  { now := 1736000012345, year := 2025, pdfFails := false, tempFiles := [],
    drive := exampleDrive, notion := exampleNotion }

def exampleCtx : ServerCtx :=
  { driveInit := true, notionInit := true, kontakteConfigured := true,
    businessResourcesConfigured := true }

def exampleWorldPdfFail : World := { exampleWorld with pdfFails := true }

/-! ## Claim C4 -/

/-- C4: for every raw input mapping, a key `a.b` with exactly one dot is
mapped to `a_b` with the same value, a key with more than one dot has
every dot replaced by an underscore, the alias `gutachtenNr` becomes
`gutachten_nr`, and every other key passes through unchanged with its
value, no other key being affected (stated for collision-free inputs
whose order number survives normalization, so that the synthesis step
does not fire). -/
theorem normalizeFormData_key_mapping (raw : Obj) (now year : Nat)
    (hnodup : (raw.map fun p => normalizeKey p.1).Nodup)
    (hnr : truthy (getStr (normalizeKeysOnly raw) "gutachten_nr") = true) :
    normalizeFormData now year raw = mapNormalizeKeys raw ∧
    (∀ a b : String, a.data.contains '.' = false → b.data.contains '.' = false →
      normalizeKey (a ++ "." ++ b) = a ++ "_" ++ b) ∧
    (∀ k : String, 2 ≤ k.data.count '.' → normalizeKey k = dotToUnderscore k) ∧
    normalizeKey "gutachtenNr" = "gutachten_nr" ∧
    (∀ k : String, k.data.contains '.' = false → k ≠ "gutachtenNr" → normalizeKey k = k) := by
  refine ⟨?_, ?_, ?_, rfl, ?_⟩
  · rw [normalizeFormData]
    simp only [hnr, if_true]
    exact normalizeKeysOnly_eq_map raw hnodup
  · intro a b ha hb
    have hmk : ∀ s : String, String.mk s.data = s := fun s => rfl
    have hdata : (a ++ "." ++ b).data = a.data ++ '.' :: b.data := by
      simp [String.data_append]
    have hcont : (a ++ "." ++ b).data.contains '.' = true := by
      rw [hdata]
      exact List.elem_iff.2 (by simp)
    have hsplit : jsSplit (a ++ "." ++ b) '.' = [a, b] := by
      rw [jsSplit, hdata, splitOnChar_sandwich '.' a.data b.data ha hb]
      simp [hmk]
    rw [normalizeKey]
    simp [hcont, hsplit]
  · intro k hk
    have hcont : k.data.contains '.' = true :=
      List.elem_iff.2 (List.count_pos_iff.1 (by omega))
    have hlen : (splitOnChar '.' k.data).length = k.data.count '.' + 1 :=
      splitOnChar_length '.' k.data
    rw [normalizeKey]
    simp only [hcont, if_true]
    cases hs : jsSplit k '.' with
    | nil => rfl
    | cons x t1 =>
      cases t1 with
      | nil => rfl
      | cons y t2 =>
        cases t2 with
        | nil =>
          rw [jsSplit] at hs
          have hlen2 := congrArg List.length hs
          rw [List.length_map, hlen] at hlen2
          simp at hlen2
          omega
        | cons z t3 => rfl
  · intro k h1 h2
    rw [normalizeKey]
    simp only [h1, Bool.false_eq_true, if_false]
    simp [h2]

/-- Witness for C4 at the spec's example payload (extended with an
explicit `gutachtenNr`) and at concrete keys. -/
theorem normalizeFormData_key_mapping_witness :
    normalizeFormData 1736000012345 2025 exampleRawWithNr = mapNormalizeKeys exampleRawWithNr ∧
    normalizeKey ("auftraggeber" ++ "." ++ "name") = "auftraggeber" ++ "_" ++ "name" ∧
    normalizeKey "a.b.c" = dotToUnderscore "a.b.c" ∧
    normalizeKey "gutachtenNr" = "gutachten_nr" ∧
    normalizeKey "unfall_tag" = "unfall_tag" := by
  have h := normalizeFormData_key_mapping exampleRawWithNr 1736000012345 2025
    (by decide) (by decide)
  exact ⟨h.1, h.2.1 "auftraggeber" "name" (by decide) (by decide),
    h.2.2.1 "a.b.c" (by decide), h.2.2.2.1,
    h.2.2.2.2 "unfall_tag" (by decide) (by decide)⟩

/-! ## Claim C8 -/

/-- C8: when, after key normalization, no truthy order number is
present, `normalizeFormData` stores a synthesized, non-empty order
number built from the current year and the trailing six digits of the
millisecond clock; two synthesized values whose clock readings differ
modulo 10^6 (which calls separated by real time do with overwhelming
probability) are distinct. -/
theorem normalizeFormData_synthesizes_order_number (raw : Obj) (now year n1 n2 : Nat)
    (hmiss : truthy (getStr (normalizeKeysOnly raw) "gutachten_nr") = false)
    (hmod : n1 % 1000000 ≠ n2 % 1000000) :
    getStr (normalizeFormData now year raw) "gutachten_nr" = some (synthGutachtenNr year now) ∧
    synthGutachtenNr year now ≠ "" ∧
    synthGutachtenNr year n1 ≠ synthGutachtenNr year n2 := by
  refine ⟨?_, synthGutachtenNr_ne_empty year now, synthGutachtenNr_ne_of_mod_ne year n1 n2 hmod⟩
  rw [normalizeFormData]
  simp only [hmiss, Bool.false_eq_true, if_false]
  exact getStr_setKey_self _ _ _

/-- Witness for C8: a payload without any order-number field, and two
clock readings differing in their final six digits. -/
theorem normalizeFormData_synthesizes_order_number_witness :
    getStr (normalizeFormData 1736000012345 2025 [("auftraggeber_name", "Max")]) "gutachten_nr"
      = some (synthGutachtenNr 2025 1736000012345) ∧
    synthGutachtenNr 2025 1736000012345 ≠ "" ∧
    synthGutachtenNr 2025 111111 ≠ synthGutachtenNr 2025 222222 :=
  normalizeFormData_synthesizes_order_number [("auftraggeber_name", "Max")]
    1736000012345 2025 111111 222222 (by decide) (by decide)

/-! ## Claim C3 -/

/-- C3: a canonical record with a missing (absent or whitespace-only)
required field fails validation with an error naming exactly the first
missing field in the fixed required order, and a submission whose
normalized record fails validation leaves the world completely
untouched: no document is rendered, nothing is uploaded, no record is
created. -/
theorem validateFormData_first_missing_field_no_side_effects (data : Obj) (f : String)
    (ctx : ServerCtx) (raw : Obj) (w : World) (e : String)
    (hmem : f ∈ requiredFields) (hmiss : fieldMissing data f = true)
    (hval : validateFormData (normalizeFormData w.now w.year raw) = .error e) :
    (∃ g l1 l2, requiredFields = l1 ++ g :: l2 ∧
      (∀ x ∈ l1, fieldMissing data x = false) ∧ fieldMissing data g = true ∧
      validateFormData data = .error ("Erforderliches Feld fehlt: " ++ g)) ∧
    processGutachtenSubmission ctx raw w = (.error e, w) := by
  constructor
  · exact validateFields_first_missing data requiredFields f hmem hmiss
  · rw [processGutachtenSubmission]
    simp only [hval]

/-- Witness for C3: the empty record (validation names `gutachten_nr`)
and a submission of the empty payload (after normalization the order
number is synthesized, so validation names `auftraggeber_name`). -/
theorem validateFormData_first_missing_field_no_side_effects_witness :
    processGutachtenSubmission exampleCtx ([] : Obj) exampleWorld =
      (.error "Erforderliches Feld fehlt: auftraggeber_name", exampleWorld) :=
  (validateFormData_first_missing_field_no_side_effects [] "gutachten_nr" exampleCtx []
    exampleWorld "Erforderliches Feld fehlt: auftraggeber_name"
    (by decide) (by decide) rfl).2

/-! ## Claim C1 -/

/-- C1: when document rendering fails, the pipeline throws
`PDF-Generierung fehlgeschlagen`, so the submission is reported as an
overall failure, and neither the object store nor the record keeper is
touched. -/
theorem render_failure_fatal (ctx : ServerCtx) (raw : Obj) (w : World)
    (hval : validateFormData (normalizeFormData w.now w.year raw) = .ok ())
    (hpdf : w.pdfFails = true) :
    (processGutachtenSubmission ctx raw w).fst = .error "PDF-Generierung fehlgeschlagen" ∧
    (processGutachtenSubmission ctx raw w).snd.drive = w.drive ∧
    (processGutachtenSubmission ctx raw w).snd.notion = w.notion := by
  rw [processGutachtenSubmission]
  simp [hval, generatePDFFile, hpdf]

/-- Witness for C1: the example payload with a failing PDF renderer. -/
theorem render_failure_fatal_witness :
    (processGutachtenSubmission exampleCtx exampleRaw exampleWorldPdfFail).fst
      = .error "PDF-Generierung fehlgeschlagen" ∧
    (processGutachtenSubmission exampleCtx exampleRaw exampleWorldPdfFail).snd.drive
      = exampleWorldPdfFail.drive ∧
    (processGutachtenSubmission exampleCtx exampleRaw exampleWorldPdfFail).snd.notion
      = exampleWorldPdfFail.notion :=
  render_failure_fatal exampleCtx exampleRaw exampleWorldPdfFail rfl rfl

/-! ## Claim C2 -/

theorem tempPath_ne_empty (a b : String) :
    (("temp/Gutachten_" ++ a ++ "_" ++ b ++ ".pdf") != "") = true := by
  rw [bne_iff_ne]
  intro hcontra
  have hd := congrArg String.data hcontra
  simp only [String.data_append] at hd
  simp at hd

theorem uploadToGoogleDrive_error_of_down (fd : Obj) (p : String) (d : DriveState)
    (h : d.reachable = false ∨ d.rootFolder = none) :
    ∃ e, uploadToGoogleDrive fd p d = .error e := by
  rcases h with h | h
  · rcases hroot : d.rootFolder with _ | r
    · rw [uploadToGoogleDrive, hroot]
      exact ⟨_, rfl⟩
    · rw [uploadToGoogleDrive, hroot, h]
      exact ⟨_, rfl⟩
  · rw [uploadToGoogleDrive, h]
    exact ⟨_, rfl⟩

theorem processNotionIntegration_resource_no_link (kc : Bool) (fd : Obj) (st : NotionState)
    (hck : st.createOk = true) :
    ∃ r, (processNotionIntegration kc true fd none st).2.resources = st.resources ++ [r] ∧
      r.link = none := by
  rw [processNotionIntegration]
  cases hkc : kc
  · simp [hck, buildGutachtenResourceProperties]
  · cases hfind : findCustomerByKennzeichen st (getStrD fd "auftraggeber_kennzeichen") with
    | some c => simp [hfind, hck, buildGutachtenResourceProperties]
    | none => simp [hfind, hck, buildGutachtenResourceProperties]

/-- C2: when rendering succeeds but the object store is unavailable (no
client, unreachable API, or unconfigured root folder), the pipeline
still reports overall success, records the upload stage as failed or
skipped, leaves the store untouched, and record-keeping still runs: the
created order entry carries no `Link` property. -/
theorem upload_failure_nonfatal (ctx : ServerCtx) (raw : Obj) (w : World)
    (hval : validateFormData (normalizeFormData w.now w.year raw) = .ok ())
    (hpdf : w.pdfFails = false)
    (hup : ctx.driveInit = false ∨ w.drive.reachable = false ∨ w.drive.rootFolder = none)
    (hni : ctx.notionInit = true)
    (hbiz : ctx.businessResourcesConfigured = true)
    (hck : w.notion.createOk = true) :
    ∃ res w', processGutachtenSubmission ctx raw w = (.ok res, w') ∧
      res.googleDrive.failedOrSkipped = true ∧
      w'.drive = w.drive ∧
      ∃ r, w'.notion.resources = w.notion.resources ++ [r] ∧ r.link = none := by
  rw [processGutachtenSubmission]
  simp only [hval, generatePDFFile, hpdf, Bool.false_eq_true, if_false]
  rcases hpn : processNotionIntegration ctx.kontakteConfigured ctx.businessResourcesConfigured
      (normalizeFormData w.now w.year raw) none w.notion with ⟨nres, nst⟩
  obtain ⟨r, hr, hl⟩ :=
    processNotionIntegration_resource_no_link ctx.kontakteConfigured
      (normalizeFormData w.now w.year raw) w.notion hck
  rw [hbiz] at hpn
  rw [hpn] at hr
  by_cases hdi : ctx.driveInit = true
  · have hup' : w.drive.reachable = false ∨ w.drive.rootFolder = none := by
      rcases hup with h | h | h
      · rw [hdi] at h
        exact absurd h (by simp)
      · exact Or.inl h
      · exact Or.inr h
    obtain ⟨e, he⟩ := uploadToGoogleDrive_error_of_down
      (normalizeFormData w.now w.year raw)
      (renderedTempFile (normalizeFormData w.now w.year raw) w.now).path w.drive hup'
    simp only [renderedTempFile] at he
    simp only [hdi, Bool.true_and, renderedTempFile, tempPath_ne_empty, if_true, he, hni,
      hbiz, hpn]
    exact ⟨_, _, rfl, rfl, rfl, r, hr, hl⟩
  · have hdi' : ctx.driveInit = false := by
      revert hdi
      cases ctx.driveInit <;> simp
    simp only [hdi', Bool.false_and, Bool.false_eq_true, if_false, hni, hbiz, hpn, if_true,
      renderedTempFile]
    exact ⟨_, _, rfl, rfl, rfl, r, hr, hl⟩

/-- Witness for C2: the example payload with the Drive API unreachable
and record keeping configured. -/
theorem upload_failure_nonfatal_witness :
    ∃ res w', processGutachtenSubmission exampleCtx exampleRaw
        { exampleWorld with drive := { exampleDrive with reachable := false } } =
        (.ok res, w') ∧
      res.googleDrive.failedOrSkipped = true ∧
      w'.drive = { exampleWorld with
        drive := { exampleDrive with reachable := false } }.drive ∧
      ∃ r, w'.notion.resources = { exampleWorld with
        drive := { exampleDrive with reachable := false } }.notion.resources ++ [r] ∧
        r.link = none :=
  upload_failure_nonfatal exampleCtx exampleRaw
    { exampleWorld with drive := { exampleDrive with reachable := false } }
    rfl rfl (Or.inr (Or.inl rfl)) rfl rfl rfl

/-! ## Claim C5 -/

/-- Counterexample to C5: a fully successful submission — the upload was
attempted and completed (`failedOrSkipped = false`) — after which the
rendered PDF still sits in the scratch directory: the pipeline has no
cleanup step on any exit path. -/
theorem temp_file_not_removed_counterexample :
    (processGutachtenSubmission exampleCtx exampleRaw exampleWorld).snd.tempFiles.length = 1 ∧
    ((processGutachtenSubmission exampleCtx exampleRaw exampleWorld).fst.toOption.map
      (fun r => r.googleDrive.failedOrSkipped)) = some false :=
  ⟨rfl, rfl⟩

/-- C5 amended: the rendered PDF is written to the scratch location and
is never removed — on every successful exit path (upload succeeded,
failed, or skipped) the file created by the submission is still present
in the scratch directory when the pipeline returns. -/
theorem temp_file_retained_on_success (ctx : ServerCtx) (raw : Obj) (w : World)
    (res : SubmissionResults) (w' : World)
    (h : processGutachtenSubmission ctx raw w = (.ok res, w')) :
    w'.tempFiles = w.tempFiles ++
      [renderedTempFile (normalizeFormData w.now w.year raw) w.now] := by
  rw [processGutachtenSubmission] at h
  cases hval : validateFormData (normalizeFormData w.now w.year raw) with
  | error e =>
    rw [hval] at h
    simp at h
  | ok u =>
    cases u
    rw [hval] at h
    cases hpdf : w.pdfFails with
    | true =>
      rw [hpdf] at h
      simp [generatePDFFile] at h
    | false =>
      rw [hpdf] at h
      simp only [generatePDFFile, Bool.false_eq_true, if_false] at h
      repeat' split at h
      all_goals
        rw [Prod.mk.injEq] at h
        rw [← h.2]

/-- The pipeline result of the example submission. -/
def exampleResults : SubmissionResults where
  gutachten_nr := "DS-2025-012345"
  pdfFilePath := "temp/Gutachten_DS-2025-012345_1736000012345.pdf"
  googleDrive := .ok
    { fileId := 11
      fileName := "Gutachten_DS-2025-012345.pdf"
      folderName := "BI-XX 123"
      folderId := 10
      fileLink := "https://drive.google.com/file/d/11/view" }
  notion := .ok { customer := .created 100, businessResource := .created 101 }

/-- Witness for the amended C5 at the example submission. -/
theorem temp_file_retained_on_success_witness :
    (processGutachtenSubmission exampleCtx exampleRaw exampleWorld).snd.tempFiles =
      exampleWorld.tempFiles ++
        [renderedTempFile (normalizeFormData exampleWorld.now exampleWorld.year exampleRaw)
          exampleWorld.now] :=
  temp_file_retained_on_success exampleCtx exampleRaw exampleWorld exampleResults
    (processGutachtenSubmission exampleCtx exampleRaw exampleWorld).snd rfl

/-! ## Claim C6 -/

theorem uploadToGoogleDrive_creates_folder (fd : Obj) (p : String) (d : DriveState)
    (key : String) (rootId : Nat)
    (hkeyD : getStrD fd "auftraggeber_kennzeichen" = key) (hne : key ≠ "")
    (hroot : d.rootFolder = some rootId) (hreach : d.reachable = true)
    (hfind : d.folders.find? (fun f => f.fname = key && f.parent = rootId) = none) :
    uploadToGoogleDrive fd p d = .ok
      (⟨d.nextId + 1, "Gutachten_" ++ getStrD fd "gutachten_nr" ++ ".pdf", key, d.nextId,
        "https://drive.google.com/file/d/" ++ Nat.repr (d.nextId + 1) ++ "/view"⟩,
       { d with
           folders := d.folders ++ [⟨d.nextId, key, rootId⟩]
           files := d.files ++
             [⟨d.nextId + 1, "Gutachten_" ++ getStrD fd "gutachten_nr" ++ ".pdf", d.nextId⟩]
           nextId := d.nextId + 2 }) := by
  rw [uploadToGoogleDrive, hroot, hreach]
  simp only [hkeyD, jsOrStr, if_neg hne, hfind, if_true]

theorem uploadToGoogleDrive_reuses_folder (fd : Obj) (p : String) (d : DriveState)
    (key : String) (rootId : Nat) (fo : DriveFolder)
    (hkeyD : getStrD fd "auftraggeber_kennzeichen" = key) (hne : key ≠ "")
    (hroot : d.rootFolder = some rootId) (hreach : d.reachable = true)
    (hfind : d.folders.find? (fun f => f.fname = key && f.parent = rootId) = some fo) :
    uploadToGoogleDrive fd p d = .ok
      (⟨d.nextId, "Gutachten_" ++ getStrD fd "gutachten_nr" ++ ".pdf", key, fo.id,
        "https://drive.google.com/file/d/" ++ Nat.repr d.nextId ++ "/view"⟩,
       { d with
           files := d.files ++
             [⟨d.nextId, "Gutachten_" ++ getStrD fd "gutachten_nr" ++ ".pdf", fo.id⟩]
           nextId := d.nextId + 1 }) := by
  rw [uploadToGoogleDrive, hroot, hreach]
  simp only [hkeyD, jsOrStr, if_neg hne, hfind, if_true]
  rw [hroot, hreach]

/-- C6: uploading twice with the same customer key creates exactly one
folder under the configured root — the second call finds and reuses the
folder created by the first, never creating a duplicate — and both
uploaded files reside under that folder. -/
theorem drive_folder_reuse_idempotent (fd : Obj) (d : DriveState) (p1 p2 : String)
    (key : String) (rootId : Nat)
    (hkeyD : getStrD fd "auftraggeber_kennzeichen" = key) (hne : key ≠ "")
    (hroot : d.rootFolder = some rootId) (hreach : d.reachable = true)
    (hnofolder : ∀ f ∈ d.folders, ¬(f.fname = key ∧ f.parent = rootId)) :
    ∃ r1 d1 r2 d2,
      uploadToGoogleDrive fd p1 d = .ok (r1, d1) ∧
      uploadToGoogleDrive fd p2 d1 = .ok (r2, d2) ∧
      d1.folders = d.folders ++ [⟨d.nextId, key, rootId⟩] ∧
      d2.folders = d1.folders ∧
      (d2.folders.filter (fun f => f.fname = key && f.parent = rootId)).length = 1 ∧
      r1.folderId = d.nextId ∧ r2.folderId = d.nextId ∧
      d2.files = d.files ++
        [⟨d.nextId + 1, "Gutachten_" ++ getStrD fd "gutachten_nr" ++ ".pdf", d.nextId⟩,
         ⟨d.nextId + 2, "Gutachten_" ++ getStrD fd "gutachten_nr" ++ ".pdf", d.nextId⟩] := by
  have hpred : ∀ f ∈ d.folders, ¬((fun f => f.fname = key && f.parent = rootId) f = true) := by
    intro f hf
    simp only [Bool.and_eq_true, decide_eq_true_eq, not_and]
    intro hx hy
    exact hnofolder f hf ⟨hx, hy⟩
  have hfind1 : d.folders.find? (fun f => f.fname = key && f.parent = rootId) = none :=
    List.find?_eq_none.2 hpred
  have h1 := uploadToGoogleDrive_creates_folder fd p1 d key rootId hkeyD hne hroot hreach hfind1
  have hfind2 :
      ((d.folders ++ [⟨d.nextId, key, rootId⟩] : List DriveFolder).find?
        (fun f => f.fname = key && f.parent = rootId))
        = some ⟨d.nextId, key, rootId⟩ := by
    rw [List.find?_append, hfind1]
    simp [List.find?]
  have h2 := uploadToGoogleDrive_reuses_folder fd p2
    { d with
        folders := d.folders ++ [⟨d.nextId, key, rootId⟩]
        files := d.files ++
          [⟨d.nextId + 1, "Gutachten_" ++ getStrD fd "gutachten_nr" ++ ".pdf", d.nextId⟩]
        nextId := d.nextId + 2 }
    key rootId ⟨d.nextId, key, rootId⟩ hkeyD hne hroot hreach hfind2
  refine ⟨_, _, _, _, h1, h2, rfl, rfl, ?_, rfl, rfl, ?_⟩
  · simp only [List.filter_append]
    rw [List.filter_eq_nil_iff.2 hpred]
    simp [List.filter]
  · simp [List.append_assoc]

/-! ## Claim C7 -/

theorem findCustomer_none (st : NotionState) (key : String)
    (hnone : ∀ c ∈ st.contacts, c.kennzeichen ≠ key) :
    findCustomerByKennzeichen st key = none := by
  rw [findCustomerByKennzeichen]
  split
  · rw [List.find?_eq_none]
    intro c hc
    simp [hnone c hc]
  · rfl

theorem findCustomer_eq_find (st : NotionState) (key : String) (hq : st.queryOk = true) :
    findCustomerByKennzeichen st key = st.contacts.find? (fun c => c.kennzeichen = key) := by
  rw [findCustomerByKennzeichen, hq]
  simp

theorem processNotionIntegration_creates_contact (bc : Bool) (fd : Obj)
    (link : Option String) (st : NotionState)
    (hc : st.createOk = true)
    (hnone : findCustomerByKennzeichen st (getStrD fd "auftraggeber_kennzeichen") = none) :
    (processNotionIntegration true bc fd link st).1.customer = .created st.nextId ∧
    (processNotionIntegration true bc fd link st).2.contacts
      = st.contacts ++ [buildKontakteProperties st fd] ∧
    (processNotionIntegration true bc fd link st).2.queryOk = st.queryOk ∧
    (processNotionIntegration true bc fd link st).2.createOk = true := by
  rw [processNotionIntegration]
  cases bc <;> simp [hnone, hc]

theorem processNotionIntegration_finds_contact (bc : Bool) (fd : Obj)
    (link : Option String) (st : NotionState) (c : NotionContact)
    (hfound : findCustomerByKennzeichen st (getStrD fd "auftraggeber_kennzeichen") = some c) :
    (processNotionIntegration true bc fd link st).1.customer = .foundExisting c.id ∧
    (processNotionIntegration true bc fd link st).2.contacts = st.contacts := by
  rw [processNotionIntegration]
  cases bc <;> cases hcreate : st.createOk <;> simp [hfound, hcreate]

/-- C7: under sequential execution, two submissions with the same plate
identifier create at most one contact entry: the first call creates the
contact (action `created`), the second finds it by the exact business
key lookup (action `found_existing`), and the contact collection ends up
with exactly one entry for that key. -/
theorem contact_upsert_idempotent (fd1 fd2 : Obj) (st : NotionState) (key : String)
    (bc1 bc2 : Bool) (link1 link2 : Option String)
    (hk1 : getStrD fd1 "auftraggeber_kennzeichen" = key)
    (hk2 : getStrD fd2 "auftraggeber_kennzeichen" = key)
    (hq : st.queryOk = true) (hc : st.createOk = true)
    (hnone : ∀ c ∈ st.contacts, c.kennzeichen ≠ key) :
    ∃ r1 st1 r2 st2,
      processNotionIntegration true bc1 fd1 link1 st = (r1, st1) ∧
      processNotionIntegration true bc2 fd2 link2 st1 = (r2, st2) ∧
      r1.customer = .created st.nextId ∧
      r2.customer = .foundExisting st.nextId ∧
      (st2.contacts.filter (fun c => c.kennzeichen = key)).length = 1 ∧
      st2.contacts.length = st.contacts.length + 1 := by
  have hfind1 : findCustomerByKennzeichen st (getStrD fd1 "auftraggeber_kennzeichen") = none := by
    rw [hk1]
    exact findCustomer_none st key hnone
  have hnewk : (buildKontakteProperties st fd1).kennzeichen = key := by
    simp [buildKontakteProperties, hk1]
  have hstnone : st.contacts.find? (fun c => c.kennzeichen = key) = none := by
    rw [List.find?_eq_none]
    intro c hcm
    simp [hnone c hcm]
  rcases hp1 : processNotionIntegration true bc1 fd1 link1 st with ⟨r1, st1⟩
  have hcr := processNotionIntegration_creates_contact bc1 fd1 link1 st hc hfind1
  rw [hp1] at hcr
  have hfound2 : findCustomerByKennzeichen st1 (getStrD fd2 "auftraggeber_kennzeichen")
      = some (buildKontakteProperties st fd1) := by
    rw [hk2, findCustomer_eq_find st1 key (by rw [hcr.2.2.1]; exact hq), hcr.2.1,
      List.find?_append, hstnone]
    simp [List.find?, hnewk]
  rcases hp2 : processNotionIntegration true bc2 fd2 link2 st1 with ⟨r2, st2⟩
  have hfd := processNotionIntegration_finds_contact bc2 fd2 link2 st1
    (buildKontakteProperties st fd1) hfound2
  rw [hp2] at hfd
  refine ⟨r1, st1, r2, st2, rfl, hp2, hcr.1, ?_, ?_, ?_⟩
  · rw [hfd.1]
    rfl
  · rw [hfd.2, hcr.2.1, List.filter_append, List.filter_eq_nil_iff.2 ?_]
    · simp [List.filter, hnewk]
    · intro c hcm
      simp [hnone c hcm]
  · rw [hfd.2, hcr.2.1]
    simp

/-- Witness for C7: two submissions of the example plate against an
empty contact collection. -/
theorem contact_upsert_idempotent_witness :
    ∃ r1 st1 r2 st2,
      processNotionIntegration true true
        [("auftraggeber_kennzeichen", "BI-XX 123")] none exampleNotion = (r1, st1) ∧
      processNotionIntegration true true
        [("auftraggeber_kennzeichen", "BI-XX 123")] none st1 = (r2, st2) ∧
      r1.customer = .created exampleNotion.nextId ∧
      r2.customer = .foundExisting exampleNotion.nextId ∧
      (st2.contacts.filter (fun c => c.kennzeichen = "BI-XX 123")).length = 1 ∧
      st2.contacts.length = exampleNotion.contacts.length + 1 :=
  contact_upsert_idempotent [("auftraggeber_kennzeichen", "BI-XX 123")]
    [("auftraggeber_kennzeichen", "BI-XX 123")] exampleNotion "BI-XX 123" true true none none
    (by decide) (by decide) rfl rfl (by decide)

/-- Witness for C6: two uploads of the example plate against an empty
Drive root. -/
theorem drive_folder_reuse_idempotent_witness :
    ∃ r1 d1 r2 d2,
      uploadToGoogleDrive [("auftraggeber_kennzeichen", "BI-XX 123"), ("gutachten_nr", "DS-1")]
        "p1" exampleDrive = .ok (r1, d1) ∧
      uploadToGoogleDrive [("auftraggeber_kennzeichen", "BI-XX 123"), ("gutachten_nr", "DS-1")]
        "p2" d1 = .ok (r2, d2) ∧
      d1.folders = exampleDrive.folders ++ [⟨exampleDrive.nextId, "BI-XX 123", 1⟩] ∧
      d2.folders = d1.folders ∧
      (d2.folders.filter (fun f => f.fname = "BI-XX 123" && f.parent = 1)).length = 1 ∧
      r1.folderId = exampleDrive.nextId ∧ r2.folderId = exampleDrive.nextId ∧
      d2.files = exampleDrive.files ++
        [⟨exampleDrive.nextId + 1,
          "Gutachten_" ++ getStrD [("auftraggeber_kennzeichen", "BI-XX 123"),
            ("gutachten_nr", "DS-1")] "gutachten_nr" ++ ".pdf", exampleDrive.nextId⟩,
         ⟨exampleDrive.nextId + 2,
          "Gutachten_" ++ getStrD [("auftraggeber_kennzeichen", "BI-XX 123"),
            ("gutachten_nr", "DS-1")] "gutachten_nr" ++ ".pdf", exampleDrive.nextId⟩] :=
  drive_folder_reuse_idempotent
    [("auftraggeber_kennzeichen", "BI-XX 123"), ("gutachten_nr", "DS-1")] exampleDrive
    "p1" "p2" "BI-XX 123" 1 (by decide) (by decide) rfl rfl (by decide)

/-! ## Claim C10 -/

/-- C10: when the business-key query itself errors, the lookup returns
null exactly as when no contact exists — the two situations are
indistinguishable — and the pipeline proceeds to create a new contact;
the lookup failure never surfaces as a stage error. -/
theorem lookup_failure_treated_as_missing (st st' : NotionState) (key : String) (fd : Obj)
    (bc : Bool) (link : Option String)
    (hq : st.queryOk = false) (hc : st.createOk = true)
    (hk : getStrD fd "auftraggeber_kennzeichen" = key)
    (_hq' : st'.queryOk = true) (hnone : ∀ c ∈ st'.contacts, c.kennzeichen ≠ key) :
    findCustomerByKennzeichen st key = none ∧
    findCustomerByKennzeichen st key = findCustomerByKennzeichen st' key ∧
    (processNotionIntegration true bc fd link st).1.customer = .created st.nextId := by
  have h1 : findCustomerByKennzeichen st key = none := by
    rw [findCustomerByKennzeichen, hq]
    simp
  refine ⟨h1, ?_, ?_⟩
  · rw [h1, findCustomer_none st' key hnone]
  · exact (processNotionIntegration_creates_contact bc fd link st hc
      (by rw [hk]; exact h1)).1

/-- Witness for C10: a failing query against a state that does contain a
contact for the key, versus a working query against an empty state. -/
theorem lookup_failure_treated_as_missing_witness :
    findCustomerByKennzeichen { exampleNotion with queryOk := false } "BI-XX 123" = none ∧
    findCustomerByKennzeichen { exampleNotion with queryOk := false } "BI-XX 123"
      = findCustomerByKennzeichen exampleNotion "BI-XX 123" ∧
    (processNotionIntegration true true [("auftraggeber_kennzeichen", "BI-XX 123")] none
      { exampleNotion with queryOk := false }).1.customer
      = .created { exampleNotion with queryOk := false }.nextId :=
  lookup_failure_treated_as_missing { exampleNotion with queryOk := false } exampleNotion
    "BI-XX 123" [("auftraggeber_kennzeichen", "BI-XX 123")] true none
    rfl rfl (by decide) rfl (by decide)

/-! ## Claim C9 -/

/-- Counterexample to C9: when the contact string contains a second
slash (phone numbers are often written `0521/123456`), the extracted
phone is the segment between the first and second slash, not the
trimmed remainder after the first delimiter — in the rendered document
and in the contact properties alike. -/
theorem contact_split_counterexample :
    pdfClientPhone [("auftraggeber_kontakt", "max@test.de/0521/123456")] = "0521" ∧
    specPhoneOfKontakt "max@test.de/0521/123456" = "0521/123456" ∧
    pdfClientPhone [("auftraggeber_kontakt", "max@test.de/0521/123456")]
      ≠ specPhoneOfKontakt "max@test.de/0521/123456" ∧
    kontaktePhone [("auftraggeber_kontakt", "max@test.de/0521/123456")] = "0521" := by
  refine ⟨rfl, rfl, ?_, rfl⟩
  decide

theorem jsOrStr_right_empty (a : String) : jsOrStr a "" = a := by
  rw [jsOrStr]
  by_cases h : a = "" <;> simp [h]

theorem if_empty_jsTrim (e : String) : (if e = "" then "" else jsTrim e) = jsTrim e := by
  by_cases h : e = "" <;> simp [h, trim_empty]

/-- C9 amended: the client's email is indeed the trimmed substring
before the first `/`, in the rendered document and in the contact entry
alike; the phone, however, is the trimmed segment between the first and
the second `/` (the second element of the full split), which coincides
with the trimmed remainder after the first `/` exactly when the contact
string contains at most one slash. -/
theorem contact_split_amended (fd : Obj) (s : String) (now : Nat) (st : NotionState)
    (h : getStr fd "auftraggeber_kontakt" = some s) :
    (renderedTempFile fd now).doc.clientEmail = specEmailOfKontakt s ∧
    (buildKontakteProperties st fd).email = specEmailOfKontakt s ∧
    (renderedTempFile fd now).doc.clientPhone = segmentPhoneOfKontakt s ∧
    (buildKontakteProperties st fd).phone =
      (if segmentPhoneOfKontakt s = "" then none else some (segmentPhoneOfKontakt s)) ∧
    (s.data.count '/' ≤ 1 → segmentPhoneOfKontakt s = specPhoneOfKontakt s) := by
  have hD : getStrD fd "auftraggeber_kontakt" = s := by
    rw [getStrD, h]
    rfl
  have hparts : kontakteParts fd = (if s = "" then (["", ""] : List String) else jsSplit s '/') := by
    rw [kontakteParts, h, hD]
    by_cases hs : s = "" <;> simp [truthy, hs]
  have hpdfE : pdfClientEmail fd = specEmailOfKontakt s := by
    rw [pdfClientEmail, jsOrStr_right_empty, pdfKontaktParts, hD, getD_map_trim,
      jsSplit_getD_zero]
    rfl
  have hpdfP : pdfClientPhone fd = segmentPhoneOfKontakt s := by
    rw [pdfClientPhone, jsOrStr_right_empty, pdfKontaktParts, hD, getD_map_trim,
      jsSplit_getD_one]
    rfl
  have hkP : kontaktePhone fd = segmentPhoneOfKontakt s := by
    simp only [kontaktePhone, hparts, if_empty_jsTrim]
    by_cases hs : s = ""
    · subst hs
      simp [segmentPhoneOfKontakt, jsSplit, splitOnChar, trim_empty]
    · simp only [hs, if_false]
      rw [jsSplit_getD_one]
      rfl
  refine ⟨?_, ?_, ?_, ?_, ?_⟩
  · simp only [renderedTempFile]
    exact hpdfE
  · simp only [buildKontakteProperties, kontakteEmail, if_empty_jsTrim, hparts]
    by_cases hs : s = ""
    · subst hs
      simp [specEmailOfKontakt, trim_empty]
    · simp only [hs, if_false]
      rw [jsSplit_getD_zero]
      rfl
  · simp only [renderedTempFile]
    exact hpdfP
  · simp only [buildKontakteProperties]
    rw [hkP]
  · intro hcount
    rw [segmentPhoneOfKontakt, specPhoneOfKontakt,
      segment_eq_remainder_of_count_le_one '/' s.data hcount]

/-- Witness for the amended C9 at the spec's example contact string
(one slash, so the segment and the remainder coincide). -/
theorem contact_split_amended_witness :
    (renderedTempFile [("auftraggeber_kontakt", "max@test.de / 0151123456")] 1).doc.clientEmail
      = specEmailOfKontakt "max@test.de / 0151123456" ∧
    segmentPhoneOfKontakt "max@test.de / 0151123456"
      = specPhoneOfKontakt "max@test.de / 0151123456" := by
  have h := contact_split_amended [("auftraggeber_kontakt", "max@test.de / 0151123456")]
    "max@test.de / 0151123456" 1 exampleNotion rfl
  exact ⟨h.1, h.2.2.2.2 (by decide)⟩
